import Mathlib

/-!
Verification development for the lightcurve repository.

The repository is a notebook pipeline (`exoplanet_fit.ipynb` plus the
README) that reads a standardized CSV of observations, preprocesses times
and magnitudes, fits a Bayesian transit model, and summarizes posterior
predictive samples.  Numeric arrays are modelled as lists of rationals
(every floating-point value of the program is a finite decimal, hence a
rational); the single transcendental computation, the magnitude-to-flux
conversion `10 ** (-0.4 * (mag - mag0))`, is modelled over the reals.
-/

namespace Lightcurve

/-- Ascending sort, as numpy performs internally for median and
percentile computations. -/
def np_sort (xs : List ℚ) : List ℚ := xs.insertionSort (· ≤ ·)

/-- Model of `np.median`: the middle element of the sorted list when the
length is odd, the average of the two middle elements when it is even. -/
def np_median (xs : List ℚ) : ℚ :=
  let s := np_sort xs
  let n := s.length
  if n % 2 = 1 then s.getD (n / 2) 0
  else (s.getD (n / 2 - 1) 0 + s.getD (n / 2) 0) / 2

/-- Linear interpolation of a sample list at a fractional index, as
`np.percentile` performs it with its default interpolation: the value at
the floor index plus the fractional part times the gap to the next value. -/
def interpAt (s : List ℚ) (pos : ℚ) : ℚ :=
  let i : Nat := (Int.floor pos).toNat
  let lo := s.getD i 0
  let hi := s.getD (i + 1) lo
  lo + (pos - (i : ℚ)) * (hi - lo)

/-- Model of `np.percentile` with the default linear interpolation: the
sorted list evaluated at fractional index `q * (n - 1) / 100`. -/
def percentile (q : ℚ) (xs : List ℚ) : ℚ :=
  let s := np_sort xs
  interpAt s (q * ((s.length : ℚ) - 1) / 100)

/-- Guarded median: `np.median` raises on an empty array, modelled as
`none`. -/
def np_median? (xs : List ℚ) : Option ℚ :=
  if xs = [] then none else some (np_median xs)

/-- Model of `np.mean` (division by zero yields 0 in `ℚ`, but the
pipeline only evaluates it on nonempty arrays). -/
def np_mean (xs : List ℚ) : ℚ := xs.sum / (xs.length : ℚ)

/-- Model of `np.diff`: successive differences `xs[i+1] - xs[i]`. -/
def np_diff (xs : List ℚ) : List ℚ :=
  List.zipWith (fun a b => b - a) xs xs.tail

/-- Cell 5d7182a5: `t0 = time[0]` (guarded model of the index access). -/
def time0? (time : List ℚ) : Option ℚ := time.head?

/-- Cell 5d7182a5: `t0 = time[0]`, with default 0 for a total function. -/
def t0 (time : List ℚ) : ℚ := time.headD 0

/-- Cell 5d7182a5: `t_rel = time - t0`. -/
def t_rel (time : List ℚ) : List ℚ := time.map (fun t => t - t0 time)

/-- Cell 5d7182a5: `t_ref = np.mean(t_rel)`. -/
def t_ref (time : List ℚ) : ℚ := np_mean (t_rel time)

/-- Cell 5d7182a5: `t_norm = t_rel - t_ref`. -/
def t_norm (time : List ℚ) : List ℚ :=
  (t_rel time).map (fun t => t - t_ref time)

/-- Cell 5d7182a5: `mag0 = np.median(mag)`. -/
def mag0 (mag : List ℚ) : ℚ := np_median mag

/-- Cell 5d7182a5: `flux_rel = 10**(-0.4 * (mag - mag0)) - 1.0`,
elementwise; the real power of 10 forces the model into `ℝ`. -/
noncomputable def flux_rel (mag : List ℚ) (i : Nat) : ℝ :=
  (10 : ℝ) ^ (-(0.4 : ℝ) * (((mag.getD i 0 : ℚ) : ℝ) - ((mag0 mag : ℚ) : ℝ))) - 1

/-- Cell 5d7182a5: `flux_err = 0.4 * np.log(10) * (flux_rel + 1) * merr`,
elementwise. -/
noncomputable def flux_err (mag merr : List ℚ) (i : Nat) : ℝ :=
  (0.4 : ℝ) * Real.log 10 * (flux_rel mag i + 1) * ((merr.getD i 0 : ℚ) : ℝ)

/-- Cell 1b0b5589: `texp = np.median(np.diff(t_norm))`, guarded: the
median is undefined when fewer than two observations exist. -/
def texp? (time : List ℚ) : Option ℚ := np_median? (np_diff (t_norm time))

/-- Posterior predictive samples `lc_samps`: outer index chains, middle
index draws, inner index time points. -/
def PosteriorSamples : Type := List (List (List ℚ))

/-- The values a 3-d sample array takes at one time point, collected over
the chain and draw axes (axes `(0,1)` of `lc_samps`). -/
def atTime (samps : List (List (List ℚ))) (t : Nat) : List ℚ :=
  samps.flatten.map (fun draw => draw.getD t 0)

/-- Cell 1b0b5589: `lc_median = np.median(lc_samps, axis=(0,1))`;
`T` is the number of time points. -/
def lc_median (T : Nat) (samps : List (List (List ℚ))) : List ℚ :=
  (List.range T).map (fun t => np_median (atTime samps t))

/-- Cell 1b0b5589: the 16th percentile row of
`np.percentile(lc_samps, [16,84], axis=(0,1))`. -/
def lc_lo (T : Nat) (samps : List (List (List ℚ))) : List ℚ :=
  (List.range T).map (fun t => percentile 16 (atTime samps t))

/-- Cell 1b0b5589: the 84th percentile row of
`np.percentile(lc_samps, [16,84], axis=(0,1))`. -/
def lc_hi (T : Nat) (samps : List (List (List ℚ))) : List ℚ :=
  (List.range T).map (fun t => percentile 84 (atTime samps t))

/-- Cell 44fd8196: path of the standardized observation CSV. -/
def lc_obs_path : String := "data/lc_obs.csv"

/-- Cell 44fd8196: the columns read from the observation CSV
(`df['HJD']`, `df['MAG']`, `df['MERR']`). -/
def lc_obs_columns : List String := ["HJD", "MAG", "MERR"]

/-- Cell 1b0b5589: the names of the random variables and deterministic
quantities registered in the `pm.Model`, in source order. -/
def model_var_names : List String :=
  ["logP", "period", "phase", "tm", "r", "b", "log_rho_star", "rho_star",
   "log_rstar", "r_star", "u", "mean", "obs"]

/-- Files written by `exoplanet_fit.ipynb`: the notebook performs a
single read (`pd.read_csv`) and ends in `plt.show()`; it contains no
`to_csv`, `savefig` or any other file-writing call, so the list is
empty. -/
def exoplanet_fit_written_files : List String := []

/-- From the repository README (Example Workflow): the files the README
documents `exoplanet_fit.ipynb` as producing. -/
def readme_documented_outputs : List String :=
  ["data/lc_synth.csv", "data/uncertainties.csv"]

/-- The parsed observation table: the three arrays read in cell
44fd8196. -/
structure ObsTable where
  time : List ℚ
  mag : List ℚ
  merr : List ℚ

/-- The notebook variables relevant to the data-flow claims: the parsed
arrays plus every derived value later cells create. -/
structure NotebookState where
  time : List ℚ
  mag : List ℚ
  merr : List ℚ
  t_norm_v : List ℚ
  mag0_v : ℚ
  flux_rel_v : List ℝ
  flux_err_v : List ℝ
  lc_median_v : List ℚ
  lc_lo_v : List ℚ
  lc_hi_v : List ℚ

/-- Cell 44fd8196: reading the table initializes the state; no derived
values exist yet. -/
def readStage (tbl : ObsTable) : NotebookState :=
  { time := tbl.time, mag := tbl.mag, merr := tbl.merr,
    t_norm_v := [], mag0_v := 0, flux_rel_v := [], flux_err_v := [],
    lc_median_v := [], lc_lo_v := [], lc_hi_v := [] }

/-- Cell 5d7182a5: preprocessing assigns only the derived fields; the
numpy expressions `time - t0`, `10**(...)` allocate new arrays and
mutate nothing. -/
noncomputable def preprocessStage (s : NotebookState) : NotebookState :=
  { s with
    t_norm_v := t_norm s.time,
    mag0_v := mag0 s.mag,
    flux_rel_v := (List.range s.mag.length).map (fun i => flux_rel s.mag i),
    flux_err_v := (List.range s.mag.length).map (fun i => flux_err s.mag s.merr i) }

/-- Cell 1b0b5589 (after sampling): summarization assigns only the
summary fields. -/
def summarizeStage (samps : List (List (List ℚ))) (s : NotebookState) :
    NotebookState :=
  { s with
    lc_median_v := lc_median s.time.length samps,
    lc_lo_v := lc_lo s.time.length samps,
    lc_hi_v := lc_hi s.time.length samps }

/-- The pipeline with its fallible library calls made explicit: CSV
parsing, MCMC sampling and posterior prediction each may fail with a
library error; the notebook wraps none of them in any handler, so the
stages compose by plain monadic sequencing in `Except`. -/
noncomputable def runPipeline (readRes : Except String ObsTable)
    (sampleFn : NotebookState → Except String (List (List (List ℚ))))
    (ppcFn : List (List (List ℚ)) → Except String (List (List (List ℚ)))) :
    Except String NotebookState :=
  Except.bind readRes (fun tbl =>
    let s := preprocessStage (readStage tbl)
    Except.bind (sampleFn s) (fun trace =>
      Except.bind (ppcFn trace) (fun samps =>
        Except.ok (summarizeStage samps s))))

/-! Helper lemmas about the preprocessing arithmetic. -/

theorem sum_map_sub (xs : List ℚ) (c : ℚ) :
    (xs.map (fun x => x - c)).sum = xs.sum - (xs.length : ℚ) * c := by
  induction xs with
  | nil => simp
  | cons y ys ih =>
    simp only [List.map_cons, List.sum_cons, ih, List.length_cons]
    push_cast
    ring

theorem np_mean_map_sub (xs : List ℚ) (c : ℚ) (h : xs ≠ []) :
    np_mean (xs.map (fun x => x - c)) = np_mean xs - c := by
  have hn0 : xs.length ≠ 0 := fun hl => h (List.length_eq_zero.mp hl)
  have hn : (xs.length : ℚ) ≠ 0 := Nat.cast_ne_zero.mpr hn0
  simp only [np_mean, List.length_map, sum_map_sub]
  field_simp

theorem getD_map_sub (xs : List ℚ) (c : ℚ) (i : Nat) (hi : i < xs.length) :
    (xs.map (fun x => x - c)).getD i 0 = xs.getD i 0 - c := by
  have hi2 : i < (xs.map (fun x => x - c)).length := by simpa using hi
  rw [List.getD_eq_getElem _ _ hi2, List.getD_eq_getElem _ _ hi,
    List.getElem_map]

theorem t_rel_getD (time : List ℚ) (i : Nat) (hi : i < time.length) :
    (t_rel time).getD i 0 = time.getD i 0 - t0 time :=
  getD_map_sub time (t0 time) i hi

theorem t_ref_eq (time : List ℚ) (h : time ≠ []) :
    t_ref time = np_mean time - t0 time :=
  np_mean_map_sub time (t0 time) h

theorem t_norm_getD (time : List ℚ) (i : Nat) (hi : i < time.length)
    (h : time ≠ []) :
    (t_norm time).getD i 0 = time.getD i 0 - np_mean time := by
  have h1 : i < (t_rel time).length := by simpa [t_rel] using hi
  rw [t_norm, getD_map_sub _ _ _ h1, t_rel_getD time i hi, t_ref_eq time h]
  ring

theorem t_rel_ne_nil (time : List ℚ) (h : time ≠ []) : t_rel time ≠ [] := by
  simpa [t_rel] using h

theorem np_mean_t_norm (time : List ℚ) (h : time ≠ []) :
    np_mean (t_norm time) = 0 := by
  rw [t_norm, np_mean_map_sub _ _ (t_rel_ne_nil time h), t_ref]
  ring

theorem t0_map_add (time : List ℚ) (c : ℚ) (h : time ≠ []) :
    t0 (time.map (fun t => t + c)) = t0 time + c := by
  cases time with
  | nil => exact absurd rfl h
  | cons y ys => simp [t0]

theorem t_rel_shift (time : List ℚ) (c : ℚ) (h : time ≠ []) :
    t_rel (time.map (fun t => t + c)) = t_rel time := by
  simp only [t_rel, t0_map_add time c h, List.map_map]
  refine List.map_congr_left ?_
  intro x _
  simp only [Function.comp_apply]
  ring

theorem t_norm_shift (time : List ℚ) (c : ℚ) (h : time ≠ []) :
    t_norm (time.map (fun t => t + c)) = t_norm time := by
  simp only [t_norm, t_ref, t_rel_shift time c h]

/-! Helper lemmas about lengths, for the safety claim. -/

theorem t_norm_length (time : List ℚ) : (t_norm time).length = time.length := by
  simp [t_norm, t_rel]

theorem np_diff_length (xs : List ℚ) :
    (np_diff xs).length = xs.length - 1 := by
  simp only [np_diff, List.length_zipWith, List.length_tail]
  omega

/-! Claim theorems. -/

/-- C1: the model fitter reads the standardized CSV `data/lc_obs.csv`
with columns HJD, MAG and MERR, and the sampled model registers the
parameters `period`, `tm`, `r` and `b`, so the posterior sample set
contains vectors of these parameters. -/
theorem c1_model_fitter_io_and_parameters :
    lc_obs_path = "data/lc_obs.csv" ∧
    lc_obs_columns = ["HJD", "MAG", "MERR"] ∧
    "period" ∈ model_var_names ∧ "tm" ∈ model_var_names ∧
    "r" ∈ model_var_names ∧ "b" ∈ model_var_names := by
  refine ⟨rfl, rfl, ?_, ?_, ?_, ?_⟩ <;> simp [model_var_names]

/-- C2: the README documents `exoplanet_fit.ipynb` as producing
`data/lc_synth.csv` and `data/uncertainties.csv`, but the notebook
writes no files at all, so neither documented output is among the files
it writes. -/
theorem c2_documented_outputs_never_written :
    "data/lc_synth.csv" ∈ readme_documented_outputs ∧
    "data/uncertainties.csv" ∈ readme_documented_outputs ∧
    "data/lc_synth.csv" ∉ exoplanet_fit_written_files ∧
    "data/uncertainties.csv" ∉ exoplanet_fit_written_files := by
  refine ⟨?_, ?_, ?_, ?_⟩ <;> simp [readme_documented_outputs,
    exoplanet_fit_written_files]

/-- C5: for a nonempty time array, `t_norm[i] = time[i] - mean(time)`
(the intermediate subtraction of `time[0]` cancels), the mean of
`t_norm` is zero, and `t_norm` is invariant under shifting all input
timestamps by a common constant. -/
theorem c5_t_norm_centering (time : List ℚ) (i : Nat) (c : ℚ)
    (h : time ≠ []) (hi : i < time.length) :
    (t_norm time).getD i 0 = time.getD i 0 - np_mean time ∧
    np_mean (t_norm time) = 0 ∧
    t_norm (time.map (fun t => t + c)) = t_norm time :=
  ⟨t_norm_getD time i hi h, np_mean_t_norm time h, t_norm_shift time c h⟩

/-- Witness for C5 at the concrete time array `[3, 5]`, index 0,
shift 7. -/
theorem c5_t_norm_centering_witness :
    ([3, 5] : List ℚ) ≠ [] ∧ 0 < ([3, 5] : List ℚ).length ∧
    ((t_norm [3, 5]).getD 0 0 = ([3, 5] : List ℚ).getD 0 0 - np_mean [3, 5] ∧
     np_mean (t_norm [3, 5]) = 0 ∧
     t_norm (([3, 5] : List ℚ).map (fun t => t + 7)) = t_norm [3, 5]) :=
  ⟨by decide, by decide, c5_t_norm_centering [3, 5] 0 7 (by decide) (by decide)⟩

/-- C6: the parsed observation arrays are immutable: after reading, the
preprocessing and summarization stages only assign derived fields, and
the time, magnitude and magnitude-error arrays of the final state equal
the table as read. -/
theorem c6_parsed_observations_immutable (tbl : ObsTable)
    (samps : List (List (List ℚ))) :
    (summarizeStage samps (preprocessStage (readStage tbl))).time = tbl.time ∧
    (summarizeStage samps (preprocessStage (readStage tbl))).mag = tbl.mag ∧
    (summarizeStage samps (preprocessStage (readStage tbl))).merr = tbl.merr :=
  ⟨rfl, rfl, rfl⟩

/-- C8: no stage catches, translates or retries errors: when the CSV
read, the sampler, or the posterior predictive call fails, the pipeline
returns exactly that library error. -/
theorem c8_errors_propagate_unchanged
    (sampleFn : NotebookState → Except String (List (List (List ℚ))))
    (ppcFn : List (List (List ℚ)) → Except String (List (List (List ℚ)))) :
    (∀ e : String, runPipeline (Except.error e) sampleFn ppcFn = Except.error e) ∧
    (∀ (e : String) (tbl : ObsTable),
      sampleFn (preprocessStage (readStage tbl)) = Except.error e →
      runPipeline (Except.ok tbl) sampleFn ppcFn = Except.error e) ∧
    (∀ (e : String) (tbl : ObsTable) (trace : List (List (List ℚ))),
      sampleFn (preprocessStage (readStage tbl)) = Except.ok trace →
      ppcFn trace = Except.error e →
      runPipeline (Except.ok tbl) sampleFn ppcFn = Except.error e) := by
  refine ⟨fun e => rfl, fun e tbl hs => ?_, fun e tbl trace hs hp => ?_⟩
  · have h1 : runPipeline (Except.ok tbl) sampleFn ppcFn =
        Except.bind (sampleFn (preprocessStage (readStage tbl))) (fun trace =>
          Except.bind (ppcFn trace) (fun samps =>
            Except.ok (summarizeStage samps (preprocessStage (readStage tbl))))) := rfl
    rw [h1, hs]
    rfl
  · have h1 : runPipeline (Except.ok tbl) sampleFn ppcFn =
        Except.bind (sampleFn (preprocessStage (readStage tbl))) (fun trace =>
          Except.bind (ppcFn trace) (fun samps =>
            Except.ok (summarizeStage samps (preprocessStage (readStage tbl))))) := rfl
    rw [h1, hs]
    show Except.bind (ppcFn trace) _ = Except.error e
    rw [hp]
    rfl

/-- Witness for C8: a failing sampler call propagates its error through
the pipeline unchanged. -/
theorem c8_errors_propagate_unchanged_witness :
    runPipeline (Except.ok ⟨[0, 1], [5, 6], [1, 1]⟩)
      (fun _ => Except.error "sampler diverged")
      (fun s => Except.ok s) = Except.error "sampler diverged" :=
  (c8_errors_propagate_unchanged
    (fun _ => Except.error "sampler diverged") (fun s => Except.ok s)).2.1
    "sampler diverged" ⟨[0, 1], [5, 6], [1, 1]⟩ rfl

/-- C9: with at least two observation rows, the pipeline's index access
`time[0]` and the exposure time `np.median(np.diff(t_norm))` are both
well defined. -/
theorem c9_two_rows_suffice (time : List ℚ) (h : 2 ≤ time.length) :
    (time0? time).isSome ∧ (texp? time).isSome := by
  constructor
  · cases time with
    | nil => simp at h
    | cons y ys => simp [time0?]
  · have hlen : (np_diff (t_norm time)).length = time.length - 1 := by
      rw [np_diff_length, t_norm_length]
    have hne : np_diff (t_norm time) ≠ [] := by
      intro hnil
      rw [hnil] at hlen
      simp at hlen
      omega
    simp [texp?, np_median?, hne]

/-- C4: the magnitude-to-flux conversion satisfies
`flux_rel[i] + 1 = 10 ^ (-0.4 * (mag[i] - median(mag)))`, which is
strictly positive; an observation at exactly the median magnitude maps
to relative flux 0; and `flux_err[i]` is nonnegative whenever `merr[i]`
is. -/
theorem c4_flux_conversion (mag merr : List ℚ) (i : Nat)
    (hlen : mag.length = merr.length) (hne : mag ≠ []) (hi : i < mag.length) :
    flux_rel mag i + 1 =
      (10 : ℝ) ^ (-(0.4 : ℝ) * (((mag.getD i 0 : ℚ) : ℝ) - ((mag0 mag : ℚ) : ℝ))) ∧
    0 < flux_rel mag i + 1 ∧
    (mag.getD i 0 = mag0 mag → flux_rel mag i = 0) ∧
    (0 ≤ merr.getD i 0 → 0 ≤ flux_err mag merr i) := by
  have hdef : flux_rel mag i + 1 =
      (10 : ℝ) ^ (-(0.4 : ℝ) * (((mag.getD i 0 : ℚ) : ℝ) - ((mag0 mag : ℚ) : ℝ))) := by
    simp [flux_rel]
  have hpos : 0 < flux_rel mag i + 1 := by
    rw [hdef]
    exact Real.rpow_pos_of_pos (by norm_num) _
  refine ⟨hdef, hpos, ?_, ?_⟩
  · intro h
    have hz : -(0.4 : ℝ) * (((mag.getD i 0 : ℚ) : ℝ) - ((mag0 mag : ℚ) : ℝ)) = 0 := by
      rw [h]
      ring
    unfold flux_rel
    rw [hz, Real.rpow_zero]
    ring
  · intro hm
    have h04 : (0 : ℝ) ≤ (0.4 : ℝ) := by norm_num
    have hlog : (0 : ℝ) ≤ Real.log 10 := Real.log_nonneg (by norm_num)
    have hmr : (0 : ℝ) ≤ ((merr.getD i 0 : ℚ) : ℝ) := by exact_mod_cast hm
    exact mul_nonneg (mul_nonneg (mul_nonneg h04 hlog) (le_of_lt hpos)) hmr

/-- Witness for C4 at the magnitude array `[5]` with error array `[1]`,
index 0. -/
theorem c4_flux_conversion_witness :
    ([5] : List ℚ).length = ([1] : List ℚ).length ∧ ([5] : List ℚ) ≠ [] ∧
    0 < ([5] : List ℚ).length ∧
    (flux_rel [5] 0 + 1 =
      (10 : ℝ) ^ (-(0.4 : ℝ) *
        ((((5 : ℚ) : ℝ)) - ((mag0 [5] : ℚ) : ℝ))) ∧
     0 < flux_rel [5] 0 + 1 ∧
     (([5] : List ℚ).getD 0 0 = mag0 [5] → flux_rel [5] 0 = 0) ∧
     (0 ≤ ([1] : List ℚ).getD 0 0 → 0 ≤ flux_err [5] [1] 0)) :=
  ⟨by decide, by decide, by decide,
    c4_flux_conversion [5] [1] 0 (by decide) (by decide) (by decide)⟩

/-- Witness for C9 at the concrete time array `[0, 1]`. -/
theorem c9_two_rows_suffice_witness :
    2 ≤ ([0, 1] : List ℚ).length ∧
    ((time0? [0, 1]).isSome ∧ (texp? [0, 1]).isSome) :=
  ⟨by decide, c9_two_rows_suffice [0, 1] (by decide)⟩

/-! Helper lemmas about the sorting underlying median and percentile. -/

theorem np_sort_sorted (xs : List ℚ) : (np_sort xs).Sorted (· ≤ ·) :=
  List.sorted_insertionSort _ xs

theorem np_sort_perm (xs : List ℚ) : List.Perm (np_sort xs) xs :=
  List.perm_insertionSort _ xs

theorem np_sort_length (xs : List ℚ) : (np_sort xs).length = xs.length :=
  (np_sort_perm xs).length_eq

theorem np_sort_eq_of_perm {xs ys : List ℚ} (h : List.Perm xs ys) :
    np_sort xs = np_sort ys :=
  List.eq_of_perm_of_sorted
    ((np_sort_perm xs).trans (h.trans (np_sort_perm ys).symm))
    (np_sort_sorted xs) (np_sort_sorted ys)

theorem sorted_getD_le (s : List ℚ) (hs : s.Sorted (· ≤ ·)) (i j : Nat)
    (hij : i ≤ j) (hj : j < s.length) : s.getD i 0 ≤ s.getD j 0 := by
  have hi : i < s.length := Nat.lt_of_le_of_lt hij hj
  rw [List.getD_eq_getElem s 0 hi, List.getD_eq_getElem s 0 hj]
  simpa [List.get_eq_getElem] using
    hs.rel_get_of_le (a := ⟨i, hi⟩) (b := ⟨j, hj⟩) hij

theorem getD_succ_ge (s : List ℚ) (hs : s.Sorted (· ≤ ·)) (i : Nat)
    (hi : i < s.length) :
    s.getD i 0 ≤ s.getD (i + 1) (s.getD i 0) := by
  by_cases hc : i + 1 < s.length
  · rw [List.getD_eq_getElem s (s.getD i 0) hc]
    have h2 := sorted_getD_le s hs i (i + 1) (Nat.le_succ i) hc
    rwa [List.getD_eq_getElem s 0 hc] at h2
  · rw [List.getD_eq_default s (s.getD i 0) (le_of_not_lt hc)]

/-! Helper lemmas about the fractional interpolation index. -/

theorem floor_toNat_cast_le (pos : ℚ) (h0 : 0 ≤ pos) :
    (((Int.floor pos).toNat : ℕ) : ℚ) ≤ pos := by
  have hnn : (0 : ℤ) ≤ Int.floor pos := Int.floor_nonneg.mpr h0
  have h1 : (((Int.floor pos).toNat : ℕ) : ℚ) = ((Int.floor pos : ℤ) : ℚ) := by
    exact_mod_cast Int.toNat_of_nonneg hnn
  rw [h1]
  exact Int.floor_le pos

theorem lt_floor_toNat_add_one (pos : ℚ) (h0 : 0 ≤ pos) :
    pos < (((Int.floor pos).toNat : ℕ) : ℚ) + 1 := by
  have hnn : (0 : ℤ) ≤ Int.floor pos := Int.floor_nonneg.mpr h0
  have h1 : (((Int.floor pos).toNat : ℕ) : ℚ) = ((Int.floor pos : ℤ) : ℚ) := by
    exact_mod_cast Int.toNat_of_nonneg hnn
  rw [h1]
  exact Int.lt_floor_add_one pos

theorem floor_toNat_lt_length (s : List ℚ) (pos : ℚ) (h0 : 0 ≤ pos)
    (h1 : pos ≤ (s.length : ℚ) - 1) :
    (Int.floor pos).toNat < s.length := by
  have hle : (((Int.floor pos).toNat : ℕ) : ℚ) ≤ (s.length : ℚ) - 1 :=
    le_trans (floor_toNat_cast_le pos h0) h1
  have h2 : (((Int.floor pos).toNat : ℕ) : ℚ) + 1 ≤ (s.length : ℚ) := by
    linarith
  have h3 : (Int.floor pos).toNat + 1 ≤ s.length := by exact_mod_cast h2
  omega

theorem interpAt_eq (s : List ℚ) (pos : ℚ) :
    interpAt s pos =
      s.getD (Int.floor pos).toNat 0 +
        (pos - (((Int.floor pos).toNat : ℕ) : ℚ)) *
          (s.getD ((Int.floor pos).toNat + 1) (s.getD (Int.floor pos).toNat 0) -
            s.getD (Int.floor pos).toNat 0) := rfl

theorem interpAt_lower (s : List ℚ) (hs : s.Sorted (· ≤ ·)) (pos : ℚ)
    (h0 : 0 ≤ pos) (h1 : pos ≤ (s.length : ℚ) - 1) :
    s.getD (Int.floor pos).toNat 0 ≤ interpAt s pos := by
  rw [interpAt_eq]
  have hi : (Int.floor pos).toNat < s.length := floor_toNat_lt_length s pos h0 h1
  have hfrac : 0 ≤ pos - (((Int.floor pos).toNat : ℕ) : ℚ) :=
    sub_nonneg.mpr (floor_toNat_cast_le pos h0)
  have hge := getD_succ_ge s hs (Int.floor pos).toNat hi
  linarith [mul_nonneg hfrac (sub_nonneg.mpr hge)]

theorem interpAt_upper (s : List ℚ) (hs : s.Sorted (· ≤ ·)) (pos : ℚ)
    (h0 : 0 ≤ pos) (h1 : pos ≤ (s.length : ℚ) - 1) :
    interpAt s pos ≤
      s.getD (min ((Int.floor pos).toNat + 1) (s.length - 1)) 0 := by
  rw [interpAt_eq]
  have hi : (Int.floor pos).toNat < s.length := floor_toNat_lt_length s pos h0 h1
  have hfrac0 : 0 ≤ pos - (((Int.floor pos).toNat : ℕ) : ℚ) :=
    sub_nonneg.mpr (floor_toNat_cast_le pos h0)
  have hfrac1 : pos - (((Int.floor pos).toNat : ℕ) : ℚ) ≤ 1 := by
    have := lt_floor_toNat_add_one pos h0
    linarith
  by_cases hc : (Int.floor pos).toNat + 1 < s.length
  · have hmin : min ((Int.floor pos).toNat + 1) (s.length - 1) =
        (Int.floor pos).toNat + 1 := by omega
    rw [hmin, List.getD_eq_getElem s (s.getD (Int.floor pos).toNat 0) hc,
      List.getD_eq_getElem s 0 hc]
    have h2 := sorted_getD_le s hs (Int.floor pos).toNat
      ((Int.floor pos).toNat + 1) (Nat.le_succ _) hc
    rw [List.getD_eq_getElem s 0 hc] at h2
    nlinarith [mul_nonneg
      (show (0 : ℚ) ≤ 1 - (pos - (((Int.floor pos).toNat : ℕ) : ℚ)) by linarith)
      (sub_nonneg.mpr h2)]
  · have hi1 : s.length ≤ (Int.floor pos).toNat + 1 := le_of_not_lt hc
    have hmin : min ((Int.floor pos).toNat + 1) (s.length - 1) =
        (Int.floor pos).toNat := by omega
    rw [hmin, List.getD_eq_default s (s.getD (Int.floor pos).toNat 0) hi1]
    simp

theorem interpAt_mono (s : List ℚ) (hs : s.Sorted (· ≤ ·)) (p1 p2 : ℚ)
    (h0 : 0 ≤ p1) (h12 : p1 ≤ p2) (h2 : p2 ≤ (s.length : ℚ) - 1) :
    interpAt s p1 ≤ interpAt s p2 := by
  have h01 : 0 ≤ p2 := le_trans h0 h12
  have h1b : p1 ≤ (s.length : ℚ) - 1 := le_trans h12 h2
  have hii : (Int.floor p1).toNat ≤ (Int.floor p2).toNat :=
    Int.toNat_le_toNat (Int.floor_mono h12)
  rcases Nat.eq_or_lt_of_le hii with hc | hc
  · have hi : (Int.floor p1).toNat < s.length := floor_toNat_lt_length s p1 h0 h1b
    have hge := getD_succ_ge s hs (Int.floor p1).toNat hi
    have hf1 : (((Int.floor p1).toNat : ℕ) : ℚ) ≤ p1 := floor_toNat_cast_le p1 h0
    rw [interpAt_eq s p1, interpAt_eq s p2, ← hc]
    have hprod := mul_le_mul_of_nonneg_right
      (show p1 - (((Int.floor p1).toNat : ℕ) : ℚ) ≤
          p2 - (((Int.floor p1).toNat : ℕ) : ℚ) by linarith)
      (sub_nonneg.mpr hge)
    linarith
  · have hi2 : (Int.floor p2).toNat < s.length := floor_toNat_lt_length s p2 h01 h2
    have hup := interpAt_upper s hs p1 h0 h1b
    have hlo := interpAt_lower s hs p2 h01 h2
    have hmid : s.getD (min ((Int.floor p1).toNat + 1) (s.length - 1)) 0 ≤
        s.getD (Int.floor p2).toNat 0 :=
      sorted_getD_le s hs _ _ (by omega) hi2
    linarith

/-! Monotonicity of the percentile in the requested quantile, and the
identification of numpy's median with the 50th percentile. -/

theorem percentile_mono (xs : List ℚ) (q1 q2 : ℚ) (hq0 : 0 ≤ q1)
    (hq12 : q1 ≤ q2) (hq2 : q2 ≤ 100) (hne : xs ≠ []) :
    percentile q1 xs ≤ percentile q2 xs := by
  have hpos : 0 < xs.length := List.length_pos.mpr hne
  have hn1 : (1 : ℚ) ≤ ((np_sort xs).length : ℚ) := by
    rw [np_sort_length]
    exact_mod_cast hpos
  have hb0 : 0 ≤ q1 * (((np_sort xs).length : ℚ) - 1) / 100 :=
    div_nonneg (mul_nonneg hq0 (by linarith)) (by norm_num)
  have hb12 : q1 * (((np_sort xs).length : ℚ) - 1) / 100 ≤
      q2 * (((np_sort xs).length : ℚ) - 1) / 100 := by
    have := mul_le_mul_of_nonneg_right hq12
      (show (0 : ℚ) ≤ ((np_sort xs).length : ℚ) - 1 by linarith)
    linarith
  have hb2 : q2 * (((np_sort xs).length : ℚ) - 1) / 100 ≤
      ((np_sort xs).length : ℚ) - 1 := by
    have := mul_le_mul_of_nonneg_right hq2
      (show (0 : ℚ) ≤ ((np_sort xs).length : ℚ) - 1 by linarith)
    linarith
  show interpAt (np_sort xs) (q1 * (((np_sort xs).length : ℚ) - 1) / 100) ≤
    interpAt (np_sort xs) (q2 * (((np_sort xs).length : ℚ) - 1) / 100)
  exact interpAt_mono (np_sort xs) (np_sort_sorted xs) _ _ hb0 hb12 hb2

theorem np_median_eq_percentile_50 (xs : List ℚ) (hne : xs ≠ []) :
    np_median xs = percentile 50 xs := by
  have hpos : 0 < (np_sort xs).length := by
    rw [np_sort_length]
    exact List.length_pos.mpr hne
  show (if (np_sort xs).length % 2 = 1 then
          (np_sort xs).getD ((np_sort xs).length / 2) 0
        else ((np_sort xs).getD ((np_sort xs).length / 2 - 1) 0 +
          (np_sort xs).getD ((np_sort xs).length / 2) 0) / 2) =
    interpAt (np_sort xs) (50 * (((np_sort xs).length : ℚ) - 1) / 100)
  rcases Nat.even_or_odd (np_sort xs).length with he | ho
  · obtain ⟨k, hk⟩ := he
    have hk2 : (np_sort xs).length = 2 * k := by omega
    have hk1 : 1 ≤ k := by omega
    have hpose : (50 : ℚ) * (((np_sort xs).length : ℚ) - 1) / 100 =
        (k : ℚ) - 1 / 2 := by
      rw [hk2]
      push_cast
      ring
    have hfloor : Int.floor ((k : ℚ) - 1 / 2) = (k : ℤ) - 1 := by
      rw [Int.floor_eq_iff]
      constructor
      · push_cast
        linarith [show (1 : ℚ) ≤ (k : ℚ) from by exact_mod_cast hk1]
      · push_cast
        linarith
    have htn : ((k : ℤ) - 1).toNat = k - 1 := by omega
    have hsucc : k - 1 + 1 = k := by omega
    have hklt : k < (np_sort xs).length := by omega
    rw [interpAt_eq, hpose, hfloor, htn, hsucc,
      List.getD_eq_getElem (np_sort xs) ((np_sort xs).getD (k - 1) 0) hklt,
      if_neg (by omega : ¬ (np_sort xs).length % 2 = 1),
      (by omega : (np_sort xs).length / 2 = k),
      List.getD_eq_getElem (np_sort xs) 0 hklt, Nat.cast_sub hk1]
    push_cast
    ring
  · obtain ⟨k, hk⟩ := ho
    have hpose : (50 : ℚ) * (((np_sort xs).length : ℚ) - 1) / 100 = (k : ℚ) := by
      rw [hk]
      push_cast
      ring
    have hfloor : Int.floor ((k : ℚ)) = (k : ℤ) := Int.floor_natCast k
    have htn : ((k : ℤ)).toNat = k := by omega
    rw [interpAt_eq, hpose, hfloor, htn,
      if_pos (by omega : (np_sort xs).length % 2 = 1),
      (by omega : (np_sort xs).length / 2 = k)]
    ring

theorem np_median_perm {xs ys : List ℚ} (h : List.Perm xs ys) :
    np_median xs = np_median ys := by
  unfold np_median
  rw [np_sort_eq_of_perm h]

theorem percentile_perm (q : ℚ) {xs ys : List ℚ} (h : List.Perm xs ys) :
    percentile q xs = percentile q ys := by
  unfold percentile
  rw [np_sort_eq_of_perm h]

/-! Helper lemmas about the per-time-point view of the sample array. -/

theorem getD_range_map (f : Nat → ℚ) (T t : Nat) (ht : t < T) :
    ((List.range T).map f).getD t 0 = f t := by
  have h1 : t < ((List.range T).map f).length := by simpa using ht
  rw [List.getD_eq_getElem _ _ h1, List.getElem_map, List.getElem_range]

theorem atTime_ne_nil (samps : List (List (List ℚ))) (t : Nat)
    (h : samps.flatten ≠ []) : atTime samps t ≠ [] := by
  intro hnil
  exact h (List.map_eq_nil_iff.mp hnil)

theorem atTime_perm {s1 s2 : List (List (List ℚ))}
    (h : List.Perm s1.flatten s2.flatten) (t : Nat) :
    List.Perm (atTime s1 t) (atTime s2 t) :=
  h.map _

/-- C3: the summarizer returns the per-time-point median of the
posterior predictive samples as the point estimate and the per-time-point
16th and 84th percentiles as the interval bounds, and at every time
point the lower bound is at most the median, which is at most the upper
bound. -/
theorem c3_summarizer_median_between_bounds (T : Nat)
    (samps : List (List (List ℚ))) (t : Nat)
    (hne : samps.flatten ≠ []) (ht : t < T) :
    (lc_lo T samps).getD t 0 ≤ (lc_median T samps).getD t 0 ∧
    (lc_median T samps).getD t 0 ≤ (lc_hi T samps).getD t 0 ∧
    (lc_median T samps).getD t 0 = np_median (atTime samps t) ∧
    (lc_lo T samps).getD t 0 = percentile 16 (atTime samps t) ∧
    (lc_hi T samps).getD t 0 = percentile 84 (atTime samps t) := by
  have hnet : atTime samps t ≠ [] := atTime_ne_nil samps t hne
  have h50 := np_median_eq_percentile_50 (atTime samps t) hnet
  simp only [lc_median, lc_lo, lc_hi]
  rw [getD_range_map (fun u => np_median (atTime samps u)) T t ht,
    getD_range_map (fun u => percentile 16 (atTime samps u)) T t ht,
    getD_range_map (fun u => percentile 84 (atTime samps u)) T t ht]
  refine ⟨?_, ?_, rfl, rfl, rfl⟩
  · rw [h50]
    exact percentile_mono _ 16 50 (by norm_num) (by norm_num) (by norm_num) hnet
  · rw [h50]
    exact percentile_mono _ 50 84 (by norm_num) (by norm_num) (by norm_num) hnet

/-- Witness for C3 at one chain with two draws of a one-point light
curve. -/
theorem c3_summarizer_median_between_bounds_witness :
    ([[[1], [2]]] : List (List (List ℚ))).flatten ≠ [] ∧ (0 : Nat) < 1 ∧
    ((lc_lo 1 [[[1], [2]]]).getD 0 0 ≤ (lc_median 1 [[[1], [2]]]).getD 0 0 ∧
     (lc_median 1 [[[1], [2]]]).getD 0 0 ≤ (lc_hi 1 [[[1], [2]]]).getD 0 0 ∧
     (lc_median 1 [[[1], [2]]]).getD 0 0 = np_median (atTime [[[1], [2]]] 0) ∧
     (lc_lo 1 [[[1], [2]]]).getD 0 0 = percentile 16 (atTime [[[1], [2]]] 0) ∧
     (lc_hi 1 [[[1], [2]]]).getD 0 0 = percentile 84 (atTime [[[1], [2]]] 0)) :=
  ⟨by decide, by decide,
    c3_summarizer_median_between_bounds 1 [[[1], [2]]] 0 (by decide) (by decide)⟩

/-- C7: the summarizer outputs are invariant under any permutation of
the posterior samples along the chain and draw axes: if two sample
arrays hold the same draws up to reordering, the median and the 16th and
84th percentile curves coincide. -/
theorem c7_summarizer_permutation_invariant (T : Nat)
    (s1 s2 : List (List (List ℚ))) (hperm : List.Perm s1.flatten s2.flatten) :
    lc_median T s1 = lc_median T s2 ∧ lc_lo T s1 = lc_lo T s2 ∧
    lc_hi T s1 = lc_hi T s2 := by
  refine ⟨?_, ?_, ?_⟩
  · refine List.map_congr_left ?_
    intro t _
    exact np_median_perm (atTime_perm hperm t)
  · refine List.map_congr_left ?_
    intro t _
    exact percentile_perm 16 (atTime_perm hperm t)
  · refine List.map_congr_left ?_
    intro t _
    exact percentile_perm 84 (atTime_perm hperm t)

/-- Witness for C7: one chain holding draws `[1]` and `[2]` against two
chains holding the same draws in the opposite order. -/
theorem c7_summarizer_permutation_invariant_witness :
    List.Perm ([[[1], [2]]] : List (List (List ℚ))).flatten
      ([[[2]], [[1]]] : List (List (List ℚ))).flatten ∧
    (lc_median 1 [[[1], [2]]] = lc_median 1 [[[2]], [[1]]] ∧
     lc_lo 1 [[[1], [2]]] = lc_lo 1 [[[2]], [[1]]] ∧
     lc_hi 1 [[[1], [2]]] = lc_hi 1 [[[2]], [[1]]]) :=
  ⟨List.Perm.swap ([2] : List ℚ) [1] [],
   c7_summarizer_permutation_invariant 1 [[[1], [2]]] [[[2]], [[1]]]
     (List.Perm.swap ([2] : List ℚ) [1] [])⟩

end Lightcurve
